import Mathlib

/-!
Shallow embedding of the Fcpp header-only adapter (src/include/Fcpp.h):
a C++ wrapper around the ISO Fortran binding array descriptor `CFI_cdesc_t`.

Modelling conventions:
* Pointers are byte addresses in `Nat` (pointer arithmetic `p + k` on a `T*`
  advances `k * sizeof(T)` bytes; overflow of pointer arithmetic is undefined
  behaviour in C++, so unbounded `Nat` addressing is the faithful model for
  defined executions).
* `std::size_t` values obtained from the signed `CFI_index_t` fields go
  through the C++ signed-to-unsigned conversion, modelled by
  `size_t_of_index` (reduction mod 2^64).
* Run-time `assert` failures are fatal, modelled by `Option` (`none` =
  assertion fired); `static_assert` constraints are compile-time and appear
  as hypotheses restricting the rank.
* `CFI_establish` / `CFI_is_contiguous` and the numeric `CFI_type_*` /
  `CFI_attribute_*` constants live in the external `ISO_Fortran_binding.h`
  standard header, which is not part of this repository; they are modelled
  from the spec's description of the external binary contract.
-/

set_option autoImplicit false

namespace Fcpp

/-- Modelled from the spec: the type-tag enumeration of the external
interoperability standard ("type tag (enumerated: char, float32, float64,
complex64, complex128, int32/64, size-width int, int8, int16, opaque pointer,
'other'/non-interoperable)").  The numeric values are vendor-specific and
irrelevant to the wrapper; only the tags themselves and their comparability
matter. -/
inductive CFI_type_t where
  | CFI_type_char
  | CFI_type_float
  | CFI_type_double
  | CFI_type_float_Complex
  | CFI_type_double_Complex
  | CFI_type_int
  | CFI_type_long
  | CFI_type_long_long
  | CFI_type_size_t
  | CFI_type_int8_t
  | CFI_type_int16_t
  | CFI_type_cptr
  | CFI_type_other
  deriving DecidableEq

export CFI_type_t (CFI_type_char CFI_type_float CFI_type_double
  CFI_type_float_Complex CFI_type_double_Complex CFI_type_int CFI_type_long
  CFI_type_long_long CFI_type_size_t CFI_type_int8_t CFI_type_int16_t
  CFI_type_cptr CFI_type_other)

/-- The C++ element types `T` that can instantiate the templates.  One
constructor per explicit specialization of `Fcpp_impl_::type<T>` in
src/include/Fcpp.h, plus `other s` standing for any non-specialized type
(handled by the primary template). -/
inductive CppType where
  | char
  | float
  | double
  | complex_float
  | complex_double
  | int
  | long
  | long_long
  | size_t
  | int8_t
  | int16_t
  | voidPtr
  | other (s : String)
  deriving DecidableEq

namespace Fcpp_impl_

/-- `Fcpp_impl_::type<T>()` from src/include/Fcpp.h lines 31-66: the primary
template returns `CFI_type_other`; each explicit specialization returns the
tag of its type. -/
def type : CppType → CFI_type_t
  | .char => CFI_type_char
  | .float => CFI_type_float
  | .double => CFI_type_double
  | .complex_float => CFI_type_float_Complex
  | .complex_double => CFI_type_double_Complex
  | .int => CFI_type_int
  | .long => CFI_type_long
  | .long_long => CFI_type_long_long
  | .size_t => CFI_type_size_t
  | .int8_t => CFI_type_int8_t
  | .int16_t => CFI_type_int16_t
  | .voidPtr => CFI_type_cptr
  | .other _ => CFI_type_other

end Fcpp_impl_

/-- `enum class attr` from src/include/Fcpp.h lines 74-78, mirroring the
external `CFI_attribute_t` constants. -/
inductive attr where
  | other
  | allocatable
  | pointer
  deriving DecidableEq

/-- One `CFI_dim_t` record: lower bound, extent and byte stride (`sm`), all
of the signed integer type `CFI_index_t`. -/
structure CFI_dim_t where
  lower_bound : Int
  extent : Int
  sm : Int
  deriving DecidableEq

/-- The external array descriptor `CFI_cdesc_t`: base address, element byte
size, version, rank, type tag, attribute, and per-dimension records.
`base_addr` is a byte address (`0` = NULL); `attribute_` is the descriptor's
`attribute` field (renamed: `attribute` is a Lean keyword). -/
structure CFI_cdesc_t where
  base_addr : Nat
  elem_len : Nat
  version : Int
  rank : Nat
  type : CFI_type_t
  attribute_ : attr
  dim : List CFI_dim_t
  deriving DecidableEq

/-- C++ conversion of a signed 64-bit `CFI_index_t` value to `std::size_t`:
reduction modulo 2^64 (the conversion applied by `extent()` and `stride<0>()`,
which return `std::size_t` read from signed descriptor fields). -/
def size_t_of_index (x : Int) : Nat :=
  (x % ((2 : Int) ^ 64)).toNat

/-- C++ conversion of an integer value to `int` (32-bit two's complement):
reduction modulo 2^32 into [-2^31, 2^31).  This is the narrowing applied
whenever a `std::size_t` length (`buffer.size()`, `N`) is passed to the base
constructor's `int n0` parameter (since C++20 the wrapping result is
required; it is also what the major ABIs produce). -/
def int_of (x : Int) : Int :=
  (x + 2 ^ 31) % 2 ^ 32 - 2 ^ 31

/-- The dimension-0 record (`dim[0]`); descriptors of rank ≥ 1 have it. -/
def dim0 (d : CFI_cdesc_t) : CFI_dim_t :=
  d.dim.headD ⟨0, 0, 0⟩

/-- `extent(0)` as the wrapper returns it: `dim[0].extent` converted to
`std::size_t`. -/
def extent0 (d : CFI_cdesc_t) : Nat :=
  size_t_of_index (dim0 d).extent

/-- Packed (column-major contiguous) dimension records for the given extents:
dimension `i` has lower bound 0 and byte stride `elem_len * extent(0) * ... *
extent(i-1)`. -/
def mkDims (smBytes : Int) : List Int → List CFI_dim_t
  | [] => []
  | e :: rest => ⟨0, e, smBytes⟩ :: mkDims (smBytes * e) rest

/-- `true` iff the dimension records carry exactly the packed strides starting
from `smBytes`. -/
def contiguousDims (smBytes : Int) : List CFI_dim_t → Bool
  | [] => true
  | d :: rest => d.sm == smBytes && contiguousDims (smBytes * d.extent) rest

/-- Modelled from the spec: `CFI_is_contiguous` from the external standard
header (not part of this repository).  Per the spec's glossary, contiguity is
the "property that consecutive logical elements occupy consecutive memory with
no gaps": the byte strides are the packed ones, `sm[0] = elem_len` and
`sm[i] = sm[i-1] * extent(i-1)`. -/
def CFI_is_contiguous (d : CFI_cdesc_t) : Bool :=
  contiguousDims (d.elem_len : Int) d.dim

/-- Modelled from the spec: `CFI_establish` from the external standard header
(not part of this repository).  Per the spec's data model it fills a
descriptor with the version, element byte size, rank, type tag, attribute,
base address, and per-dimension records {lower bound 0, extent, packed byte
stride}; it reports non-success (here `none`) for invalid argument
combinations (rank out of 0..15, zero element size, negative extent, wrong
number of extents). -/
def CFI_establish (base : Nat) (attribute_ : attr) (type_ : CFI_type_t)
    (elemLen : Nat) (rank : Nat) (extents : List Int) : Option CFI_cdesc_t :=
  if rank ≤ 15 ∧ 0 < elemLen ∧ extents.length = rank ∧ ∀ e ∈ extents, 0 ≤ e then
    some { base_addr := base
           elem_len := elemLen
           version := 1
           rank := rank
           type := type_
           attribute_ := attribute_
           dim := mkDims (elemLen : Int) extents }
  else
    none

/-- A native contiguous buffer of `len` elements starting at byte address
`addr`: the `(data(), size())` pair through which every container constructor
(raw pointer + count, `std::vector`, `std::array`, C static array,
`std::span`) reaches the base constructor. -/
structure Buffer where
  addr : Nat
  len : Nat
  deriving DecidableEq

namespace cdesc

/-- The base `cdesc` constructor (src/include/Fcpp.h lines 111-133):
`cdesc(T* ptr, int n0, Exts... exts)` with `rank_ = 1 + sizeof...(exts)`
calls `CFI_establish(get(), ptr, attr_, type<T>(), sizeof(T), rank_,
extents)` and asserts `status == CFI_SUCCESS` (`none` = assertion fired).
`elemSize` is `sizeof(T)`; the extents array is `n0, exts...`.  The first
extent goes through the `int n0` parameter, so the argument is first
narrowed to 32-bit `int` (`int_of`) before `static_cast<CFI_index_t>`
widens it again; the variadic `exts` are forwarded and cast directly to the
64-bit `CFI_index_t`. -/
def ofPointerExts (elemSize : Nat) (type_ : CFI_type_t) (attr_ : attr)
    (ptr : Nat) (n0 : Int) (exts : List Int) : Option CFI_cdesc_t :=
  CFI_establish ptr attr_ type_ elemSize (int_of n0 :: exts).length
    (int_of n0 :: exts)

/-- The rank-1 pointer + count constructor `cdesc(T* ptr, int n)`: the count
is received by the `int n0` parameter (narrowed by `int_of` inside
`ofPointerExts`). -/
def ofPointer (elemSize : Nat) (type_ : CFI_type_t) (attr_ : attr)
    (ptr : Nat) (n : Nat) : Option CFI_cdesc_t :=
  ofPointerExts elemSize type_ attr_ ptr (n : Int) []

/-- `cdesc(T (&ref)[N])` (src/include/Fcpp.h lines 136-141): delegates to
`cdesc(ref, N)`, so the `std::size_t` extent `N` is narrowed to `int` by the
base constructor's `n0` parameter; `static_assert(attr_ == other)` and
`rank_ == 1` hold by construction here. -/
def ofStaticArray (elemSize : Nat) (type_ : CFI_type_t)
    (b : Buffer) : Option CFI_cdesc_t :=
  ofPointer elemSize type_ attr.other b.addr b.len

/-- `cdesc(std::vector<T>&)` (lines 143-148): delegates to
`cdesc(buffer.data(), buffer.size())`, so the `std::size_t` length is
narrowed to `int` by the base constructor's `n0` parameter. -/
def ofVector (elemSize : Nat) (type_ : CFI_type_t)
    (b : Buffer) : Option CFI_cdesc_t :=
  ofPointer elemSize type_ attr.other b.addr b.len

/-- `cdesc(std::array<T,N>&)` (lines 151-156): delegates to
`cdesc(buffer.data(), N)`, so the `std::size_t` extent `N` is narrowed to
`int` by the base constructor's `n0` parameter. -/
def ofArray (elemSize : Nat) (type_ : CFI_type_t)
    (b : Buffer) : Option CFI_cdesc_t :=
  ofPointer elemSize type_ attr.other b.addr b.len

/-- `cdesc(std::span<T>)` (lines 158-164): delegates to
`cdesc(buffer.data(), buffer.size())`, so the `std::size_t` length is
narrowed to `int` by the base constructor's `n0` parameter. -/
def ofSpan (elemSize : Nat) (type_ : CFI_type_t)
    (b : Buffer) : Option CFI_cdesc_t :=
  ofPointer elemSize type_ attr.other b.addr b.len

/-- `cdesc::data()` (line 205): `static_cast<pointer>(get()->base_addr)`,
with no contiguity check. -/
def data (d : CFI_cdesc_t) : Nat :=
  d.base_addr

/-- `cdesc::is_contiguous()` (lines 183-185): `CFI_is_contiguous(get()) > 0`. -/
def is_contiguous (d : CFI_cdesc_t) : Bool :=
  CFI_is_contiguous d

/-- Byte address of `cdesc::operator[](idx)` (lines 194-203):
`*(data() + idx)`, i.e. the owning subscript advances by exactly one element
and ignores the descriptor's stride field.  Rank 1 is a `static_assert`. -/
def subscriptAddr (elemSize : Nat) (d : CFI_cdesc_t) (idx : Nat) : Nat :=
  data d + idx * elemSize

/-- `cdesc::begin()` (line 208): `&operator[](0)`. -/
def beginAddr (d : CFI_cdesc_t) : Nat :=
  data d

/-- `cdesc::end()` (line 209): `&operator[](dim[0].extent)`. -/
def endAddr (elemSize : Nat) (d : CFI_cdesc_t) : Nat :=
  subscriptAddr elemSize d (extent0 d)

end cdesc

namespace cdesc_ptr

/-- The `cdesc_ptr<T, rank_, attr_>` constructor (src/include/Fcpp.h lines
268-273): stores the pointer and asserts `ptr_->type == type()`,
`ptr_->rank == rank()` and `ptr_->attribute == (CFI_attribute_t) attr_`;
`none` = one of the assertions fired, `some d` = the view borrows `d`. -/
def make (expType : CFI_type_t) (expRank : Nat) (expAttr : attr)
    (d : CFI_cdesc_t) : Option CFI_cdesc_t :=
  if d.type = expType ∧ d.rank = expRank ∧ d.attribute_ = expAttr then
    some d
  else
    none

/-- `cdesc_ptr::is_contiguous()` (lines 282-284). -/
def is_contiguous (d : CFI_cdesc_t) : Bool :=
  CFI_is_contiguous d

/-- `cdesc_ptr::data()` (lines 286-289): asserts `is_contiguous()` and then
returns `static_cast<pointer>(ptr_->base_addr)`; `none` = the assertion
fired. -/
def data (d : CFI_cdesc_t) : Option Nat :=
  if is_contiguous d then some d.base_addr else none

/-- `cdesc_ptr::stride<0>()` (lines 383-387): `ptr_->dim[0].sm` returned as
`std::size_t`. -/
def stride0 (d : CFI_cdesc_t) : Nat :=
  size_t_of_index (dim0 d).sm

/-- Byte address of `cdesc_ptr::operator[](idx)` (lines 294-303):
`*(base_addr() + idx*(stride<0>()/sizeof(T)))` — the index is multiplied by
the element stride `stride<0>()/sizeof(T)`.  Rank 1 is a `static_assert`. -/
def subscriptAddr (elemSize : Nat) (d : CFI_cdesc_t) (idx : Nat) : Nat :=
  d.base_addr + idx * (stride0 d / elemSize) * elemSize

/-- `cdesc_ptr::begin()` (lines 338-341): `Iterator(base_addr(), stride<0>())`;
the byte address of its current pointer. -/
def beginAddr (d : CFI_cdesc_t) : Nat :=
  d.base_addr

/-- `cdesc_ptr::end()` (lines 342-346): `nbytes = extent<0>()*(stride<0>()/
sizeof(T)); Iterator(base_addr() + nbytes, stride<0>())` — the end pointer is
base plus `extent(0) * (stride/sizeof(T))` elements. -/
def endAddr (elemSize : Nat) (d : CFI_cdesc_t) : Nat :=
  d.base_addr + extent0 d * (stride0 d / elemSize) * elemSize

/-- The byte distance the iterator's `operator++` advances: `ptr_ + stride`
elements with `stride = sm/sizeof(T)` (Iterator, lines 305-335). -/
def stepBytes (elemSize : Nat) (d : CFI_cdesc_t) : Nat :=
  stride0 d / elemSize * elemSize

/-- The loop `for (it = first; it != last; ++it)`: collects the byte address
of every element visited, where `operator!=` compares only the pointers and
`operator++` advances by `step` bytes.  `fuel` bounds the number of steps;
`none` = the loop had not reached `last` after `fuel` increments (the C++
loop would keep running past the buffer). -/
def iterLoop (step last : Nat) : Nat → Nat → Option (List Nat)
  | cur, 0 => if cur = last then some [] else none
  | cur, fuel + 1 =>
    if cur = last then some []
    else (iterLoop step last (cur + step) fuel).map (cur :: ·)

/-- Iterating a rank-1 borrowed view from `begin()` to `end()`: the byte
addresses visited. -/
def iterateAddrs (elemSize : Nat) (d : CFI_cdesc_t) (fuel : Nat) :
    Option (List Nat) :=
  iterLoop (stepBytes elemSize d) (endAddr elemSize d) (beginAddr d) fuel

end cdesc_ptr

end Fcpp

open Fcpp

/-- The address sequence C2 asserts the iteration visits: the `i`-th visited
element lives at byte address `base + i * sm` for `i = 0, ..., e-1`. -/
def visitedAddrs (base sm e : Nat) : List Nat :=
  (List.range e).map (fun i => base + i * sm)

/-- The property C1 asserts of a freshly constructed owning view over a
buffer `b` of elements of size `elemSize`: the construction succeeded and
the descriptor has rank 1, extent(0) = length, elem_len = sizeof(T), the
buffer's base address, and is contiguous. -/
def ownedViewOk (elemSize : Nat) (b : Buffer) : Option CFI_cdesc_t → Prop
  | none => False
  | some d =>
      d.rank = 1 ∧ extent0 d = b.len ∧ d.elem_len = elemSize ∧
        d.base_addr = b.addr ∧ cdesc.is_contiguous d = true

/-- Insert into a sorted list, preserving sortedness. -/
def insertSorted (x : Int) : List Int → List Int
  | [] => [x]
  | y :: ys => if x ≤ y then x :: y :: ys else y :: insertSorted x ys

/-- A sorting algorithm on `Int` lists.  `std::sort` promises exactly a
sorted permutation of the range, and over a total order the sorted
permutation of a list is unique as a list, so any correct sort models
`std::sort`; insertion sort is the simplest executable choice. -/
def sortInts : List Int → List Int
  | [] => []
  | x :: xs => insertSorted x (sortInts xs)

/-- `std::sort(fp.begin(), fp.end())` through the owning view's iterators
(src/tests/cdesc_test.cc lines 125-140): memory is a list `mem` of elements
laid out from byte address `memBase` with one element every `elemSize`
bytes; the iterator pair delimits elements `(begin-memBase)/elemSize` up to
`(end-memBase)/elemSize`, and that range is replaced in place by its sorted
permutation. -/
def sortViaIterators (elemSize : Nat) (d : CFI_cdesc_t) (memBase : Nat)
    (mem : List Int) : List Int :=
  let lo := (cdesc.beginAddr d - memBase) / elemSize
  let hi := (cdesc.endAddr elemSize d - memBase) / elemSize
  mem.take lo ++ sortInts ((mem.drop lo).take (hi - lo)) ++ mem.drop hi

theorem size_t_of_index_natCast (n : Nat) (h : n < 2 ^ 64) :
    size_t_of_index (n : Int) = n := by
  unfold size_t_of_index
  rw [Int.emod_eq_of_lt (by positivity) (by exact_mod_cast h)]
  exact Int.toNat_natCast n

theorem int_of_natCast (n : Nat) (h : n < 2 ^ 31) :
    int_of (n : Int) = (n : Int) := by
  unfold int_of
  have h1 : (0 : Int) ≤ (n : Int) + 2 ^ 31 := by positivity
  have h2 : (n : Int) + 2 ^ 31 < 2 ^ 32 := by
    have hn : (n : Int) < 2 ^ 31 := by exact_mod_cast h
    norm_num
    omega
  rw [Int.emod_eq_of_lt h1 h2]
  ring

theorem contiguousDims_mkDims (smBytes : Int) (extents : List Int) :
    contiguousDims smBytes (mkDims smBytes extents) = true := by
  induction extents generalizing smBytes with
  | nil => rfl
  | cons e rest ih =>
    simpa [mkDims, contiguousDims] using ih (smBytes * e)

theorem ofPointer_eq (elemSize : Nat) (type_ : CFI_type_t) (attr_ : attr)
    (ptr n : Nat) (hE : 0 < elemSize) (hn : n < 2 ^ 31) :
    cdesc.ofPointer elemSize type_ attr_ ptr n =
      some { base_addr := ptr
             elem_len := elemSize
             version := 1
             rank := 1
             type := type_
             attribute_ := attr_
             dim := [⟨0, (n : Int), (elemSize : Int)⟩] } := by
  unfold cdesc.ofPointer cdesc.ofPointerExts CFI_establish
  rw [int_of_natCast n hn, if_pos]
  · simp [mkDims]
  · refine ⟨by norm_num, hE, rfl, ?_⟩
    intro e he
    simp only [List.mem_singleton] at he
    subst he
    exact Int.natCast_nonneg n

theorem ownedViewOk_ofPointer (elemSize : Nat) (type_ : CFI_type_t)
    (b : Buffer) (hE : 0 < elemSize) (hlen : b.len < 2 ^ 31) :
    ownedViewOk elemSize b
      (cdesc.ofPointer elemSize type_ attr.other b.addr b.len) := by
  rw [ofPointer_eq elemSize type_ attr.other b.addr b.len hE hlen]
  refine ⟨rfl, ?_, rfl, rfl, ?_⟩
  · show size_t_of_index (b.len : Int) = b.len
    exact size_t_of_index_natCast b.len (lt_trans hlen (by norm_num))
  · show contiguousDims (elemSize : Int) [⟨0, (b.len : Int), (elemSize : Int)⟩] = true
    simp [contiguousDims]

/-- C1 counterexample: a buffer of length 2^32.  Its `std::size_t` length is
narrowed to the base constructor's `int n0` parameter, wrapping to 0, so the
construction "succeeds" with extent(0) = 0 instead of extent(0) = n — the
owning view does not satisfy the claimed field equations at this length
(and at length 2^31 the wrap is negative and the line-131 assert aborts). -/
theorem claim1_counterexample :
    cdesc.ofVector 4 CFI_type_float ⟨0, 2 ^ 32⟩ =
      some (⟨0, 4, 1, 1, CFI_type_float, attr.other, [⟨0, 0, 4⟩]⟩ : CFI_cdesc_t) ∧
    extent0 (⟨0, 4, 1, 1, CFI_type_float, attr.other, [⟨0, 0, 4⟩]⟩ : CFI_cdesc_t) = 0 ∧
    (0 : Nat) ≠ 2 ^ 32 := by
  refine ⟨?_, by decide, by norm_num⟩
  decide

/-- C1 (amended): For every element type T (element size
`elemSize = sizeof(T)`, tag `type_`) and every buffer of length `n < 2^31`
(so that the length survives the size_t-to-`int` narrowing of the base
constructor's count parameter) — whether wrapped as raw pointer plus count,
`std::vector`, `std::array`, C static array, or `std::span` — the owning
view `cdesc<T>` constructed from that buffer satisfies rank() = 1,
extent(0) = n, elem_len() = sizeof(T), base address = the buffer's address,
and is_contiguous(). -/
theorem claim1_owning_view_construction (elemSize : Nat) (type_ : CFI_type_t)
    (b : Buffer) (hE : 0 < elemSize) (hlen : b.len < 2 ^ 31) :
    ownedViewOk elemSize b (cdesc.ofPointer elemSize type_ attr.other b.addr b.len) ∧
    ownedViewOk elemSize b (cdesc.ofVector elemSize type_ b) ∧
    ownedViewOk elemSize b (cdesc.ofArray elemSize type_ b) ∧
    ownedViewOk elemSize b (cdesc.ofStaticArray elemSize type_ b) ∧
    ownedViewOk elemSize b (cdesc.ofSpan elemSize type_ b) :=
  ⟨ownedViewOk_ofPointer elemSize type_ b hE hlen,
   ownedViewOk_ofPointer elemSize type_ b hE hlen,
   ownedViewOk_ofPointer elemSize type_ b hE hlen,
   ownedViewOk_ofPointer elemSize type_ b hE hlen,
   ownedViewOk_ofPointer elemSize type_ b hE hlen⟩

/-- Witness for C1 at `sizeof(float) = 4` and a length-3 buffer at address
100. -/
theorem claim1_owning_view_construction_witness :
    0 < 4 ∧ 3 < 2 ^ 31 ∧
      ownedViewOk 4 ⟨100, 3⟩ (cdesc.ofVector 4 CFI_type_float ⟨100, 3⟩) :=
  ⟨by decide, by norm_num,
    (claim1_owning_view_construction 4 CFI_type_float ⟨100, 3⟩
      (by decide) (by norm_num)).2.1⟩

/-- C6: the compile-time type-tag mapping `Fcpp_impl_::type<T>()` assigns
exactly one tag to each supported element type (char, float, double,
complex<float>, complex<double>, int, long, long long, size_t, int8_t,
int16_t, void*), and returns the sentinel non-interoperable tag
`CFI_type_other` for every other type. -/
theorem claim6_type_tag_mapping :
    Fcpp_impl_.type CppType.char = CFI_type_char ∧
    Fcpp_impl_.type CppType.float = CFI_type_float ∧
    Fcpp_impl_.type CppType.double = CFI_type_double ∧
    Fcpp_impl_.type CppType.complex_float = CFI_type_float_Complex ∧
    Fcpp_impl_.type CppType.complex_double = CFI_type_double_Complex ∧
    Fcpp_impl_.type CppType.int = CFI_type_int ∧
    Fcpp_impl_.type CppType.long = CFI_type_long ∧
    Fcpp_impl_.type CppType.long_long = CFI_type_long_long ∧
    Fcpp_impl_.type CppType.size_t = CFI_type_size_t ∧
    Fcpp_impl_.type CppType.int8_t = CFI_type_int8_t ∧
    Fcpp_impl_.type CppType.int16_t = CFI_type_int16_t ∧
    Fcpp_impl_.type CppType.voidPtr = CFI_type_cptr ∧
    ∀ s : String, Fcpp_impl_.type (CppType.other s) = CFI_type_other :=
  ⟨rfl, rfl, rfl, rfl, rfl, rfl, rfl, rfl, rfl, rfl, rfl, rfl, fun _ => rfl⟩

theorem stride0_eq (d : CFI_cdesc_t) (s : Nat)
    (hsm : (dim0 d).sm = (s : Int)) (hs64 : s < 2 ^ 64) :
    cdesc_ptr.stride0 d = s := by
  unfold cdesc_ptr.stride0
  rw [hsm]
  exact size_t_of_index_natCast s hs64

theorem iterLoop_complete (step : Nat) (hstep : 0 < step) :
    ∀ (e b fuel : Nat), e ≤ fuel →
      cdesc_ptr.iterLoop step (b + e * step) b fuel =
        some ((List.range e).map (fun i => b + i * step)) := by
  intro e
  induction e with
  | zero =>
    intro b fuel _
    cases fuel with
    | zero => simp [cdesc_ptr.iterLoop]
    | succ f => simp [cdesc_ptr.iterLoop]
  | succ e ih =>
    intro b fuel hfuel
    cases fuel with
    | zero => omega
    | succ f =>
      have hne : b ≠ b + (e + 1) * step := by
        have : 0 < (e + 1) * step := Nat.mul_pos (Nat.succ_pos e) hstep
        omega
      have hlast : b + (e + 1) * step = (b + step) + e * step := by ring
      have hlist : (List.range (e + 1)).map (fun i => b + i * step) =
          b :: (List.range e).map (fun i => (b + step) + i * step) := by
        rw [List.range_succ_eq_map, List.map_cons, List.map_map]
        refine congrArg₂ List.cons (by omega) ?_
        apply List.map_congr_left
        intro i _
        simp only [Function.comp_apply, Nat.succ_eq_add_one]
        ring
      rw [cdesc_ptr.iterLoop, if_neg hne, hlast,
        ih (b + step) f (Nat.le_of_succ_le_succ hfuel), hlist]
      rfl

theorem iterateAddrs_mult_stride (d : CFI_cdesc_t) (elemSize k e : Nat)
    (hE : 0 < elemSize) (hk : 0 < k)
    (hsm : (dim0 d).sm = ((k * elemSize : Nat) : Int))
    (hsm64 : k * elemSize < 2 ^ 64)
    (hext : (dim0 d).extent = (e : Int)) (hext64 : e < 2 ^ 64) :
    cdesc_ptr.iterateAddrs elemSize d e =
      some (visitedAddrs d.base_addr (k * elemSize) e) := by
  have hstride : cdesc_ptr.stride0 d = k * elemSize :=
    stride0_eq d (k * elemSize) hsm hsm64
  have hdiv : k * elemSize / elemSize = k := Nat.mul_div_cancel k hE
  have hext0 : extent0 d = e := by
    unfold extent0
    rw [hext]
    exact size_t_of_index_natCast e hext64
  have hstep : cdesc_ptr.stepBytes elemSize d = k * elemSize := by
    unfold cdesc_ptr.stepBytes
    rw [hstride, hdiv]
  have hend : cdesc_ptr.endAddr elemSize d = d.base_addr + e * (k * elemSize) := by
    unfold cdesc_ptr.endAddr
    rw [hstride, hdiv, hext0]
    ring
  unfold cdesc_ptr.iterateAddrs
  rw [hstep, hend]
  exact iterLoop_complete (k * elemSize) (Nat.mul_pos hk hE) e
    (cdesc_ptr.beginAddr d) e (le_refl e)

/-- C2 counterexample: a rank-1 borrowed descriptor whose dimension-0 byte
stride (2) is positive but smaller than the element size (4).  Its extent(0)
is 1, yet iterating from begin() to end() visits the empty address list
(begin already equals end), so the iteration does not visit exactly
extent(0) elements as C2 asserts of every rank-1 borrowed descriptor. -/
theorem claim2_counterexample :
    cdesc_ptr.iterateAddrs 4
      (⟨100, 4, 1, 1, CFI_type_float, attr.other, [⟨0, 1, 2⟩]⟩ : CFI_cdesc_t) 1 =
        some [] ∧
    extent0 (⟨100, 4, 1, 1, CFI_type_float, attr.other, [⟨0, 1, 2⟩]⟩ : CFI_cdesc_t) = 1 ∧
    ([] : List Nat).length ≠ 1 := by
  exact ⟨by decide, by decide, by decide⟩

/-- C2 (amended): for every rank-1 borrowed descriptor whose dimension-0
byte stride `sm` is a positive multiple `k * sizeof(T)` of the element size,
iterating from `begin()` to `end()` visits exactly `extent(0)` elements, the
`i`-th visited element at byte address `base + i * sm`, none duplicated or
skipped. -/
theorem claim2_strided_iteration (d : CFI_cdesc_t) (elemSize k e : Nat)
    (hE : 0 < elemSize) (hk : 0 < k)
    (hsm : (dim0 d).sm = ((k * elemSize : Nat) : Int))
    (hsm64 : k * elemSize < 2 ^ 64)
    (hext : (dim0 d).extent = (e : Int)) (hext64 : e < 2 ^ 64) :
    cdesc_ptr.iterateAddrs elemSize d e =
      some (visitedAddrs d.base_addr (k * elemSize) e) ∧
    (visitedAddrs d.base_addr (k * elemSize) e).length = e ∧
    (visitedAddrs d.base_addr (k * elemSize) e).Nodup := by
  refine ⟨iterateAddrs_mult_stride d elemSize k e hE hk hsm hsm64 hext hext64,
    by simp [visitedAddrs], ?_⟩
  apply List.Nodup.map ?_ (List.nodup_range e)
  intro a b hab
  have hs : 0 < k * elemSize := Nat.mul_pos hk hE
  have hab2 : d.base_addr + a * (k * elemSize) =
      d.base_addr + b * (k * elemSize) := hab
  have hab3 : a * (k * elemSize) = b * (k * elemSize) := by omega
  exact Nat.eq_of_mul_eq_mul_right hs hab3

/-- Witness for C2 (amended): element size 4, stride 8 (k = 2), extent 3,
base address 100: iteration visits addresses 100, 108, 116. -/
theorem claim2_strided_iteration_witness :
    (0 : Nat) < 4 ∧ (0 : Nat) < 2 ∧ 2 * 4 < 2 ^ 64 ∧ 3 < 2 ^ 64 ∧
    (cdesc_ptr.iterateAddrs 4
        (⟨100, 4, 1, 1, CFI_type_float, attr.other, [⟨0, 3, 8⟩]⟩ : CFI_cdesc_t) 3 =
      some (visitedAddrs 100 (2 * 4) 3) ∧
    (visitedAddrs 100 (2 * 4) 3).length = 3 ∧
    (visitedAddrs 100 (2 * 4) 3).Nodup) :=
  ⟨by decide, by decide, by norm_num, by norm_num,
    claim2_strided_iteration
      (⟨100, 4, 1, 1, CFI_type_float, attr.other, [⟨0, 3, 8⟩]⟩ : CFI_cdesc_t)
      4 2 3 (by decide) (by decide) (by decide) (by norm_num) (by decide)
      (by norm_num)⟩

/-- C10: if the dimension-0 byte stride `sm` is positive but smaller than
`sizeof(T)`, the integer division `sm / sizeof(T)` makes the per-step element
stride 0, `end()` equals `begin()` (end is base plus
`extent(0) * (sm/sizeof(T))` elements), and iterating from `begin()` to
`end()` visits zero elements regardless of extent(0). -/
theorem claim10_substride_iteration (d : CFI_cdesc_t) (elemSize s : Nat)
    (hsm : (dim0 d).sm = (s : Int)) (_hs0 : 0 < s) (hsE : s < elemSize)
    (hs64 : s < 2 ^ 64) :
    cdesc_ptr.stride0 d / elemSize = 0 ∧
    cdesc_ptr.endAddr elemSize d = cdesc_ptr.beginAddr d ∧
    ∀ fuel, cdesc_ptr.iterateAddrs elemSize d fuel = some [] := by
  have hstride : cdesc_ptr.stride0 d = s := stride0_eq d s hsm hs64
  have hdiv : cdesc_ptr.stride0 d / elemSize = 0 := by
    rw [hstride]
    exact Nat.div_eq_of_lt hsE
  have hend : cdesc_ptr.endAddr elemSize d = cdesc_ptr.beginAddr d := by
    unfold cdesc_ptr.endAddr cdesc_ptr.beginAddr
    rw [hdiv]
    ring
  refine ⟨hdiv, hend, ?_⟩
  intro fuel
  unfold cdesc_ptr.iterateAddrs
  rw [hend]
  cases fuel with
  | zero => simp [cdesc_ptr.iterLoop, cdesc_ptr.beginAddr]
  | succ f => simp [cdesc_ptr.iterLoop, cdesc_ptr.beginAddr]

/-- Witness for C10: element size 4, byte stride 2, extent 5: begin() equals
end() and the iteration visits nothing. -/
theorem claim10_substride_iteration_witness :
    (0 : Nat) < 2 ∧ 2 < 4 ∧ 2 < 2 ^ 64 ∧
    (cdesc_ptr.stride0
        (⟨100, 4, 1, 1, CFI_type_float, attr.other, [⟨0, 5, 2⟩]⟩ : CFI_cdesc_t) / 4 = 0 ∧
      cdesc_ptr.endAddr 4
        (⟨100, 4, 1, 1, CFI_type_float, attr.other, [⟨0, 5, 2⟩]⟩ : CFI_cdesc_t) =
      cdesc_ptr.beginAddr
        (⟨100, 4, 1, 1, CFI_type_float, attr.other, [⟨0, 5, 2⟩]⟩ : CFI_cdesc_t) ∧
      ∀ fuel, cdesc_ptr.iterateAddrs 4
        (⟨100, 4, 1, 1, CFI_type_float, attr.other, [⟨0, 5, 2⟩]⟩ : CFI_cdesc_t) fuel =
          some []) :=
  ⟨by decide, by decide, by norm_num,
    claim10_substride_iteration
      (⟨100, 4, 1, 1, CFI_type_float, attr.other, [⟨0, 5, 2⟩]⟩ : CFI_cdesc_t)
      4 2 (by decide) (by decide) (by decide) (by norm_num)⟩

/-- C3: constructing a borrowing view `cdesc_ptr<T, rank, attr>` from a
descriptor fails a fatal assertion if and only if the descriptor's runtime
type tag, rank, or attribute differs from the compile-time expected values;
on mismatch it never silently proceeds, and on match construction succeeds
with the view referring to the given descriptor. -/
theorem claim3_borrow_precondition (expType : CFI_type_t) (expRank : Nat)
    (expAttr : attr) (d : CFI_cdesc_t) :
    (cdesc_ptr.make expType expRank expAttr d = none ↔
      (d.type ≠ expType ∨ d.rank ≠ expRank ∨ d.attribute_ ≠ expAttr)) ∧
    (d.type = expType → d.rank = expRank → d.attribute_ = expAttr →
      cdesc_ptr.make expType expRank expAttr d = some d) := by
  unfold cdesc_ptr.make
  constructor
  · by_cases h : d.type = expType ∧ d.rank = expRank ∧ d.attribute_ = expAttr
    · rw [if_pos h]
      simp only [reduceCtorEq, false_iff]
      tauto
    · rw [if_neg h]
      simp only [true_iff]
      tauto
  · intro h1 h2 h3
    rw [if_pos ⟨h1, h2, h3⟩]

/-- Witness for C3: a float/rank-1/plain descriptor is accepted by the
matching view and rejected by a view expecting double. -/
theorem claim3_borrow_precondition_witness :
    cdesc_ptr.make CFI_type_float 1 attr.other
      (⟨64, 4, 1, 1, CFI_type_float, attr.other, [⟨0, 3, 4⟩]⟩ : CFI_cdesc_t) =
      some (⟨64, 4, 1, 1, CFI_type_float, attr.other, [⟨0, 3, 4⟩]⟩ : CFI_cdesc_t) ∧
    cdesc_ptr.make CFI_type_double 1 attr.other
      (⟨64, 4, 1, 1, CFI_type_float, attr.other, [⟨0, 3, 4⟩]⟩ : CFI_cdesc_t) = none :=
  ⟨(claim3_borrow_precondition CFI_type_float 1 attr.other
      (⟨64, 4, 1, 1, CFI_type_float, attr.other, [⟨0, 3, 4⟩]⟩ : CFI_cdesc_t)).2
      rfl rfl rfl,
   (claim3_borrow_precondition CFI_type_double 1 attr.other
      (⟨64, 4, 1, 1, CFI_type_float, attr.other, [⟨0, 3, 4⟩]⟩ : CFI_cdesc_t)).1.mpr
      (Or.inl (by decide))⟩

/-- C5: for every rank-1 borrowed descriptor with base address `b` and
dimension-0 byte stride `sm = s`, `operator[](i)` accesses the element at
`b + i * (s / sizeof(T))` elements — the linear index is multiplied by the
element stride `s / sizeof(T)` rather than advancing by one element; in
particular when `s` is a whole number `k` of elements the accessed byte
address is `b + i * s`. -/
theorem claim5_subscript_strided (d : CFI_cdesc_t) (elemSize i s : Nat)
    (hE : 0 < elemSize) (hsm : (dim0 d).sm = (s : Int)) (hs64 : s < 2 ^ 64) :
    cdesc_ptr.subscriptAddr elemSize d i =
      d.base_addr + i * (s / elemSize) * elemSize ∧
    ∀ k, s = k * elemSize →
      cdesc_ptr.subscriptAddr elemSize d i = d.base_addr + i * s := by
  have hstride : cdesc_ptr.stride0 d = s := stride0_eq d s hsm hs64
  constructor
  · unfold cdesc_ptr.subscriptAddr
    rw [hstride]
  · intro k hk
    unfold cdesc_ptr.subscriptAddr
    rw [hstride, hk, Nat.mul_div_cancel k hE]
    ring

/-- Witness for C5: element size 4, byte stride 12, index 2: the accessed
byte address is 100 + 2*12 = 124. -/
theorem claim5_subscript_strided_witness :
    (0 : Nat) < 4 ∧ 12 < 2 ^ 64 ∧
    (cdesc_ptr.subscriptAddr 4
        (⟨100, 4, 1, 1, CFI_type_float, attr.other, [⟨0, 3, 12⟩]⟩ : CFI_cdesc_t) 2 =
      100 + 2 * (12 / 4) * 4 ∧
    ∀ k, 12 = k * 4 →
      cdesc_ptr.subscriptAddr 4
        (⟨100, 4, 1, 1, CFI_type_float, attr.other, [⟨0, 3, 12⟩]⟩ : CFI_cdesc_t) 2 =
        100 + 2 * 12) :=
  ⟨by decide, by norm_num,
    claim5_subscript_strided
      (⟨100, 4, 1, 1, CFI_type_float, attr.other, [⟨0, 3, 12⟩]⟩ : CFI_cdesc_t)
      4 2 12 (by decide) (by decide) (by norm_num)⟩

/-- C4: `cdesc_ptr::data()` returns the flat base pointer exactly when the
descriptor is contiguous and fails its fatal assertion (`none`) when it is
not, while strided iteration via `begin()`/`end()` and subscripting via
`operator[]` impose no contiguity requirement: under the stride hypotheses
alone (and for arbitrary contiguity) they still visit/address the strided
elements. -/
theorem claim4_data_requires_contiguity (d : CFI_cdesc_t) (elemSize k e : Nat)
    (hE : 0 < elemSize) (hk : 0 < k)
    (hsm : (dim0 d).sm = ((k * elemSize : Nat) : Int))
    (hsm64 : k * elemSize < 2 ^ 64)
    (hext : (dim0 d).extent = (e : Int)) (hext64 : e < 2 ^ 64) :
    (∀ d' : CFI_cdesc_t,
      (cdesc_ptr.is_contiguous d' = true → cdesc_ptr.data d' = some d'.base_addr) ∧
      (cdesc_ptr.is_contiguous d' = false → cdesc_ptr.data d' = none)) ∧
    cdesc_ptr.iterateAddrs elemSize d e =
      some (visitedAddrs d.base_addr (k * elemSize) e) ∧
    ∀ i, cdesc_ptr.subscriptAddr elemSize d i =
      d.base_addr + i * (k * elemSize) := by
  refine ⟨?_, iterateAddrs_mult_stride d elemSize k e hE hk hsm hsm64 hext hext64, ?_⟩
  · intro d'
    constructor
    · intro h
      simp [cdesc_ptr.data, h]
    · intro h
      simp [cdesc_ptr.data, h]
  · intro i
    unfold cdesc_ptr.subscriptAddr
    rw [stride0_eq d (k * elemSize) hsm hsm64, Nat.mul_div_cancel k hE]
    ring

/-- Witness for C4: a non-contiguous descriptor (element size 4, byte stride
8, extent 3) on which `data()` asserts (`none`) while iteration still visits
the three strided addresses. -/
theorem claim4_data_requires_contiguity_witness :
    (0 : Nat) < 4 ∧ (0 : Nat) < 2 ∧ 2 * 4 < 2 ^ 64 ∧ 3 < 2 ^ 64 ∧
    cdesc_ptr.is_contiguous
      (⟨100, 4, 1, 1, CFI_type_float, attr.other, [⟨0, 3, 8⟩]⟩ : CFI_cdesc_t) = false ∧
    cdesc_ptr.data
      (⟨100, 4, 1, 1, CFI_type_float, attr.other, [⟨0, 3, 8⟩]⟩ : CFI_cdesc_t) = none ∧
    cdesc_ptr.iterateAddrs 4
      (⟨100, 4, 1, 1, CFI_type_float, attr.other, [⟨0, 3, 8⟩]⟩ : CFI_cdesc_t) 3 =
        some (visitedAddrs 100 (2 * 4) 3) :=
  ⟨by decide, by decide, by norm_num, by norm_num, by decide,
    ((claim4_data_requires_contiguity
        (⟨100, 4, 1, 1, CFI_type_float, attr.other, [⟨0, 3, 8⟩]⟩ : CFI_cdesc_t)
        4 2 3 (by decide) (by decide) (by decide) (by norm_num) (by decide)
        (by norm_num)).1
      (⟨100, 4, 1, 1, CFI_type_float, attr.other, [⟨0, 3, 8⟩]⟩ : CFI_cdesc_t)).2
      (by decide),
    (claim4_data_requires_contiguity
        (⟨100, 4, 1, 1, CFI_type_float, attr.other, [⟨0, 3, 8⟩]⟩ : CFI_cdesc_t)
        4 2 3 (by decide) (by decide) (by decide) (by norm_num) (by decide)
        (by norm_num)).2.1⟩

/-- C9: every public `cdesc` constructor (they all funnel into the base
pointer + extents constructor) produces a contiguous descriptor whose
dimension-0 byte stride equals the element length, so the owning view's
`operator[]`, `begin()` and `end()` — which advance by exactly one element
and ignore the stride field — address the same bytes as the borrowed view's
descriptor-based strided addressing. -/
theorem claim9_owning_views_contiguous (elemSize : Nat) (type_ : CFI_type_t)
    (hE64 : elemSize < 2 ^ 64) :
    (∀ (attr_ : attr) (ptr : Nat) (n0 : Int) (exts : List Int) (d : CFI_cdesc_t),
      cdesc.ofPointerExts elemSize type_ attr_ ptr n0 exts = some d →
        (dim0 d).sm = (d.elem_len : Int) ∧
        cdesc.is_contiguous d = true ∧
        (∀ i, cdesc.subscriptAddr elemSize d i = cdesc_ptr.subscriptAddr elemSize d i) ∧
        cdesc.beginAddr d = cdesc_ptr.beginAddr d ∧
        cdesc.endAddr elemSize d = cdesc_ptr.endAddr elemSize d) ∧
    (∀ b : Buffer,
      cdesc.ofVector elemSize type_ b =
        cdesc.ofPointer elemSize type_ attr.other b.addr b.len ∧
      cdesc.ofArray elemSize type_ b =
        cdesc.ofPointer elemSize type_ attr.other b.addr b.len ∧
      cdesc.ofStaticArray elemSize type_ b =
        cdesc.ofPointer elemSize type_ attr.other b.addr b.len ∧
      cdesc.ofSpan elemSize type_ b =
        cdesc.ofPointer elemSize type_ attr.other b.addr b.len) := by
  constructor
  · intro attr_ ptr n0 exts d h
    unfold cdesc.ofPointerExts CFI_establish at h
    split at h
    case isFalse => exact absurd h (by simp)
    case isTrue hc =>
      obtain ⟨-, hEL, -, -⟩ := hc
      injection h with h
      subst h
      have hdim0 : dim0
          { base_addr := ptr, elem_len := elemSize, version := 1,
            rank := (int_of n0 :: exts).length, type := type_, attribute_ := attr_,
            dim := mkDims (elemSize : Int) (int_of n0 :: exts) } =
          ⟨0, int_of n0, (elemSize : Int)⟩ := by
        simp [dim0, mkDims]
      have hstride : cdesc_ptr.stride0
          { base_addr := ptr, elem_len := elemSize, version := 1,
            rank := (int_of n0 :: exts).length, type := type_, attribute_ := attr_,
            dim := mkDims (elemSize : Int) (int_of n0 :: exts) } = elemSize := by
        unfold cdesc_ptr.stride0
        rw [hdim0]
        exact size_t_of_index_natCast elemSize hE64
      refine ⟨by rw [hdim0], contiguousDims_mkDims (elemSize : Int) (int_of n0 :: exts), ?_, rfl, ?_⟩
      · intro i
        unfold cdesc.subscriptAddr cdesc_ptr.subscriptAddr cdesc.data
        rw [hstride, Nat.div_self hEL]
        ring
      · unfold cdesc.endAddr cdesc.subscriptAddr cdesc.data cdesc_ptr.endAddr
        rw [hstride, Nat.div_self hEL]
        ring
  · intro b
    exact ⟨rfl, rfl, rfl, rfl⟩

/-- Witness for C9 at element size 4: the length-3 owning view at address
100 is contiguous with unit element stride, and owning and borrowed
addressing agree. -/
theorem claim9_owning_views_contiguous_witness :
    4 < 2 ^ 64 ∧
    ((dim0 (⟨100, 4, 1, 1, CFI_type_float, attr.other, [⟨0, 3, 4⟩]⟩ : CFI_cdesc_t)).sm =
        ((⟨100, 4, 1, 1, CFI_type_float, attr.other, [⟨0, 3, 4⟩]⟩ : CFI_cdesc_t).elem_len : Int) ∧
      cdesc.is_contiguous
        (⟨100, 4, 1, 1, CFI_type_float, attr.other, [⟨0, 3, 4⟩]⟩ : CFI_cdesc_t) = true ∧
      (∀ i, cdesc.subscriptAddr 4
          (⟨100, 4, 1, 1, CFI_type_float, attr.other, [⟨0, 3, 4⟩]⟩ : CFI_cdesc_t) i =
        cdesc_ptr.subscriptAddr 4
          (⟨100, 4, 1, 1, CFI_type_float, attr.other, [⟨0, 3, 4⟩]⟩ : CFI_cdesc_t) i) ∧
      cdesc.beginAddr
        (⟨100, 4, 1, 1, CFI_type_float, attr.other, [⟨0, 3, 4⟩]⟩ : CFI_cdesc_t) =
        cdesc_ptr.beginAddr
          (⟨100, 4, 1, 1, CFI_type_float, attr.other, [⟨0, 3, 4⟩]⟩ : CFI_cdesc_t) ∧
      cdesc.endAddr 4
        (⟨100, 4, 1, 1, CFI_type_float, attr.other, [⟨0, 3, 4⟩]⟩ : CFI_cdesc_t) =
        cdesc_ptr.endAddr 4
          (⟨100, 4, 1, 1, CFI_type_float, attr.other, [⟨0, 3, 4⟩]⟩ : CFI_cdesc_t)) :=
  ⟨by norm_num,
    (claim9_owning_views_contiguous 4 CFI_type_float (by norm_num)).1
      attr.other 100 3 []
      (⟨100, 4, 1, 1, CFI_type_float, attr.other, [⟨0, 3, 4⟩]⟩ : CFI_cdesc_t)
      (by decide)⟩

/-- C8: an owning view over a buffer holding {3,2,1}; sorting the range
[begin(), end()) through the view's iterators leaves the buffer holding
{1,2,3}, a sorted permutation of the original contents, visible through the
owner's memory. -/
theorem claim8_sort_in_place :
    (cdesc.ofVector 8 CFI_type_double ⟨0, 3⟩).map
        (fun d => sortViaIterators 8 d 0 [3, 2, 1]) = some [1, 2, 3] ∧
    List.Perm [(3 : Int), 2, 1] [1, 2, 3] := by
  constructor
  · decide
  · decide
